import Mathlib

/-!
# Campaign fan-out and proof lifecycle: a shallow embedding

This file embeds the core logic of the postcard-campaign QC dashboard in
Lean 4 and proves properties of it:

* the calendar arithmetic behind `Seed.computeNextRun`
  (`app/models/seed.ts`), mirroring the day/week/calendar-month semantics of
  the `luxon` `DateTime.plus` calls it makes;
* the campaign dispatcher `SeedService.runSeed` (`app/services`), which
  expands a seed's recipient list into per-recipient postcard-creation
  calls against the mail provider;
* the inbound webhook sink `WebhooksController.store` that advances a
  proof's status from provider events;
* the user-driven proof mutations (review submission, explicit status
  override, physical-copy photo upload, thumbnail backfill) from
  `app/controllers/proofs_controller.ts`;
* seed deletion with proof orphaning from
  `app/controllers/seeds_controller.ts`;
* the size-constrained image resizer
  `ImageResizeService.resizeImageIfNeeded`.

External collaborators (the mail-provider HTTP client, the object-storage
presigner, the filesystem and the image codec) are modelled as explicit
oracles supplied to the embedded functions; a thrown JavaScript exception
is modelled as an `Except`/`Option` failure value.
-/

namespace LobQC

/-! ## Calendar arithmetic

`Seed.computeNextRun` uses `luxon`'s `DateTime.plus({weeks: 1})` and
`DateTime.plus({months: 1})`.  `luxon` normalises a week to exactly seven
days, and adding a calendar month advances the month number and clamps the
day-of-month to the target month's length.  We model a `DateTime` at day
granularity plus an opaque time-of-day component that calendar arithmetic
never touches. -/

def isLeapYear (y : Int) : Bool :=
  (y % 4 == 0 && y % 100 != 0) || y % 400 == 0

def daysInMonth (y : Int) (m : Nat) : Nat :=
  if m = 2 then (if isLeapYear y then 29 else 28)
  else if m = 4 ∨ m = 6 ∨ m = 9 ∨ m = 11 then 30
  else 31

structure DT where
  year : Int
  month : Nat
  day : Nat
  msOfDay : Nat
deriving DecidableEq, Repr

def DT.nextDay (t : DT) : DT :=
  if t.day < daysInMonth t.year t.month then { t with day := t.day + 1 }
  else if t.month < 12 then { t with month := t.month + 1, day := 1 }
  else { t with year := t.year + 1, month := 1, day := 1 }

def DT.plusDays (t : DT) : Nat → DT
  | 0 => t
  | n + 1 => (t.plusDays n).nextDay

/-- `luxon` converts `{weeks: n}` to exactly `7 * n` days. -/
def DT.plusWeeks (t : DT) (n : Nat) : DT := t.plusDays (7 * n)

/-- `luxon`'s calendar-month addition: advance the month number (rolling the
year) and clamp the day-of-month to the target month's length. -/
def DT.plusMonths (t : DT) (n : Nat) : DT :=
  let m0 : Nat := (t.month - 1) + n
  let y : Int := t.year + (m0 / 12 : Nat)
  let m : Nat := m0 % 12 + 1
  { t with year := y, month := m, day := min t.day (daysInMonth y m) }

/-! ## Data model: `Seed` and `Proof` rows (`app/models`) -/

inductive Cadence
  | one_time
  | weekly
  | monthly
deriving DecidableEq, Repr

inductive SeedStatus
  | active
  | paused
deriving DecidableEq, Repr

/-- A recipient address embedded in a seed (`Seed.toAddress` entries). -/
structure Address where
  name : Option String
  company : Option String
  addressLine1 : String
  addressLine2 : Option String
  addressCity : String
  addressState : String
  addressZip : String
  addressCountry : Option String
  phone : Option String
  email : Option String
  description : Option String
deriving DecidableEq, Repr

/-- A seed row, with the fields read and written by `SeedService.runSeed`
and `Seed.computeNextRun`. -/
structure Seed where
  id : String
  userId : String
  publicId : Option String
  name : String
  front : Option String
  back : Option String
  cadence : Cadence
  toAddress : List Address
  status : SeedStatus
  lastRunAt : Option DT
  nextRunAt : Option DT
deriving DecidableEq, Repr

/-- `Seed.computeNextRun` (`app/models/seed.ts`): null for `one_time`,
`from.plus({weeks: 1})` for `weekly`, `from.plus({months: 1})` for
`monthly`. -/
def Seed.computeNextRun (s : Seed) (t : DT) : Option DT :=
  match s.cadence with
  | .one_time => none
  | .weekly => some (t.plusWeeks 1)
  | .monthly => some (t.plusMonths 1)

inductive ProofStatus
  | created
  | in_production
  | mailed
  | delivered
  | awaiting_review
  | completed
deriving DecidableEq, Repr

/-- A proof row (`app/models/proof.ts`, post-orphaning schema: nullable
`seedId` plus a denormalised `seedName` snapshot). -/
structure ProofRow where
  id : String
  userId : String
  seedId : Option String
  seedName : Option String
  publicId : String
  resourceId : String
  lobUrl : String
  thumbnailUrl : Option String
  frontThumbnailUrl : Option String
  backThumbnailUrl : Option String
  status : ProofStatus
  trackingNumber : Option String
  mailedAt : Option DT
  deliveredAt : Option DT
  qualityRating : Option Nat
  printerVendor : Option String
  notes : Option String
  liveProofUrl : Option String
deriving DecidableEq, Repr

/-- The owning user; only the provider credential matters here. -/
structure User where
  id : String
  lobApiKey : Option String
deriving DecidableEq, Repr

/-- JavaScript truthiness of a nullable string (`undefined`, `null` and
`''` are falsy). -/
def strTruthy : Option String → Bool
  | none => false
  | some s => s ≠ ""

/-- `o || null`: replace a falsy string by `null`. -/
def optTruthyStr (o : Option String) : Option String :=
  match o with
  | some s => if s = "" then none else some s
  | none => none

/-- `o || null` on a nullable number (`0` is falsy). -/
def optTruthyNat (o : Option Nat) : Option Nat :=
  match o with
  | some k => if k = 0 then none else some k
  | none => none

/-! ## String helpers (JavaScript semantics)

`String.prototype.startsWith` / `includes` / `endsWith`, embedded over
character lists. -/

/-- Does the second list start with the first? -/
def leadMatch : List Char → List Char → Bool
  | [], _ => true
  | _ :: _, [] => false
  | a :: as, b :: bs => a = b && leadMatch as bs

/-- Does the pattern occur anywhere inside the list? -/
def occursIn (pat : List Char) : List Char → Bool
  | [] => leadMatch pat []
  | c :: rest => leadMatch pat (c :: rest) || occursIn pat rest

/-- JavaScript `s.startsWith(pat)`. -/
def startsWithStr (s pat : String) : Bool := leadMatch pat.toList s.toList

/-- JavaScript `s.includes(pat)`. -/
def strContains (s pat : String) : Bool := occursIn pat.toList s.toList

/-- JavaScript `s.endsWith(pat)`. -/
def strEndsWith (s pat : String) : Bool :=
  leadMatch pat.toList.reverse s.toList.reverse

/-- JavaScript `toLowerCase` on an ASCII character. -/
def jsLowerChar (c : Char) : Char :=
  if 'A' ≤ c ∧ c ≤ 'Z' then Char.ofNat (c.toNat + 32) else c

/-- `S3Service.isS3Url` (`app/services`): a template id (`tmpl_...`) is not
an S3 URL; otherwise the value must be an `https://` URL whose host looks
like S3. -/
def isS3Url (v : String) : Bool :=
  if startsWithStr v "tmpl_" then false
  else
    startsWithStr v "https://" &&
      (strContains v ".s3." || strContains v ".s3-" || strContains v "s3.amazonaws.com")

/-! ## The campaign dispatcher: `SeedService.runSeed`

The mail-provider client, the S3 presigner and the per-proof random hex
tokens are oracles in `RunEnv`.  A thrown JavaScript error is an
`Except.error` carrying the fields the catch block probes
(`error.message`, and a parsed `error.response.body` when present and
parseable). -/

/-- The parsed JSON error body probed by the catch block
(`errorBody.error?.message`, then `errorBody.message`). -/
structure ErrBody where
  errorMessage : Option String
  message : Option String
deriving DecidableEq, Repr

/-- A thrown JavaScript error, as observed by `runSeed`'s catch block. -/
structure JsError where
  message : Option String
  body : Option ErrBody
deriving DecidableEq, Repr

/-- `error.message || 'Unknown error occurred'`. -/
def JsError.fullMessage (e : JsError) : String :=
  match e.message with
  | some m => if m = "" then "Unknown error occurred" else m
  | none => "Unknown error occurred"

/-- The user-displayable message: prefer `errorBody.error?.message`, then
`errorBody.message`, falling back to the plain error message. -/
def JsError.displayMessage (e : JsError) : String :=
  match e.body with
  | none => e.fullMessage
  | some b =>
    ((optTruthyStr b.errorMessage).orElse fun _ => optTruthyStr b.message).getD e.fullMessage

/-- The mail-provider's `createPostcard` response (the fields `runSeed`
copies into the new proof row). -/
structure LobOutcome where
  id : String
  url : String
  thumbnailUrl : Option String
  frontThumbnailUrl : Option String
  backThumbnailUrl : Option String
deriving DecidableEq, Repr

/-- Oracles for one `runSeed` invocation: the provider call per address
index, the S3 presigner, and the per-index random hex token. -/
structure RunEnv where
  createPostcard : Nat → Address → String → String → Option String → Except JsError LobOutcome
  presign : String → Except JsError String
  hexToken : Nat → String

/-- Convert an S3 URL to a presigned URL if needed
(`if (value && S3Service.isS3Url(value)) value = await getPresignedUrl(value)`). -/
def resolveArtwork (env : RunEnv) (v : String) : Except JsError String :=
  if v ≠ "" && isS3Url v then env.presign v else Except.ok v

/-- The body of one iteration of `runSeed`'s per-address try block: build
the address copy with the `Proof <hex>` company field, resolve front/back
artwork, and call the provider.  Any step may throw. -/
def attemptOne (env : RunEnv) (seed : Seed) (i : Nat) (a : Address) :
    Except JsError LobOutcome := do
  let aWith := { a with company := some ("Proof " ++ env.hexToken i) }
  let front ← resolveArtwork env (seed.front.getD "")
  let back ← resolveArtwork env (seed.back.getD "")
  env.createPostcard i aWith front back (optTruthyStr seed.publicId)

/-- Did the per-address attempt succeed? -/
def attemptOk (env : RunEnv) (seed : Seed) (i : Nat) (a : Address) : Bool :=
  match attemptOne env seed i a with
  | .ok _ => true
  | .error _ => false

/-- `Proof.create({...})` inside `runSeed`: the new row starts in status
`created`, with the provider resource id and thumbnails; everything else
is null.  The database-generated primary key is irrelevant here. -/
def mkProof (user : User) (seed : Seed) (hex : String) (out : LobOutcome) : ProofRow :=
  { id := ""
    userId := user.id
    seedId := some seed.id
    seedName := none
    publicId := hex
    resourceId := out.id
    lobUrl := out.url
    thumbnailUrl := out.thumbnailUrl
    frontThumbnailUrl := out.frontThumbnailUrl
    backThumbnailUrl := out.backThumbnailUrl
    status := .created
    trackingNumber := none
    mailedAt := none
    deliveredAt := none
    qualityRating := none
    printerVendor := none
    notes := none
    liveProofUrl := none }

/-- One entry of `runSeed`'s failure list. -/
structure FailureRecord where
  addressIndex : Nat
  address : Address
  error : String
  fullError : String
deriving DecidableEq, Repr

/-- The proof row produced for an enumerated address when its attempt
succeeds (the error branch is never reached under that condition). -/
def proofOf (env : RunEnv) (user : User) (seed : Seed) (p : Nat × Address) : ProofRow :=
  match attemptOne env seed p.1 p.2 with
  | .ok out => mkProof user seed (env.hexToken p.1) out
  | .error _ => mkProof user seed (env.hexToken p.1) ⟨"", "", none, none, none⟩

/-- The failure record produced for an enumerated address when its attempt
throws (the ok branch is never reached under that condition). -/
def failureOf (env : RunEnv) (seed : Seed) (p : Nat × Address) : FailureRecord :=
  match attemptOne env seed p.1 p.2 with
  | .error e =>
    { addressIndex := p.1, address := p.2
      error := e.displayMessage, fullError := e.fullMessage }
  | .ok _ =>
    { addressIndex := p.1, address := p.2, error := "", fullError := "" }

/-- The `for (let i = 0; ...)` loop of `runSeed` over the enumerated
address list: on success push a new proof, on a thrown error push a
failure record and continue with the next recipient. -/
def runLoop (env : RunEnv) (user : User) (seed : Seed) :
    List (Nat × Address) → List ProofRow × List FailureRecord
  | [] => ([], [])
  | (i, a) :: rest =>
    let r := runLoop env user seed rest
    match attemptOne env seed i a with
    | .ok out => (mkProof user seed (env.hexToken i) out :: r.1, r.2)
    | .error e =>
      (r.1,
        { addressIndex := i, address := a
          error := e.displayMessage, fullError := e.fullMessage } :: r.2)

/-- The value returned by `runSeed`, together with the updated seed row it
persists. -/
structure RunSeedResult where
  proofs : List ProofRow
  errors : List FailureRecord
  seed : Seed
deriving DecidableEq, Repr

/-- `SeedService.runSeed` (`app/services`): fail fast without a Lob API
key; otherwise attempt every recipient independently and in list order,
then unconditionally update the seed's recurrence metadata (`lastRunAt`,
`nextRunAt` via `computeNextRun`, and `paused` status for `one_time`
cadence) and persist it. -/
def runSeed (env : RunEnv) (seed : Seed) (user : User) (now : DT) :
    Except String RunSeedResult :=
  if strTruthy user.lobApiKey = false then
    .error "User does not have a Lob API key configured"
  else
    let r := runLoop env user seed seed.toAddress.enum
    let seed1 : Seed :=
      { seed with
        lastRunAt := some now
        nextRunAt := seed.computeNextRun now
        status := if seed.cadence = .one_time then .paused else seed.status }
    .ok { proofs := r.1, errors := r.2, seed := seed1 }

/-! ## The webhook sink: `WebhooksController.store`

The inbound event body is `{ type: string, data: { id, tracking_number? } }`
per the provider interface.  The handler looks up the first proof whose
`resource_id` matches, mutates its fields according to the event type
suffix, and always answers 200/204. -/

structure WebhookBody where
  type : String
  dataId : Option String
  trackingNumber : Option String
deriving DecidableEq, Repr

/-- `if (body.data?.tracking_number) proof.trackingNumber = ...`: record a
truthy tracking number, otherwise keep the old one. -/
def recordTracking (old tn : Option String) : Option String :=
  match tn with
  | some t => if t = "" then old else some t
  | none => old

/-- The field writes the webhook handler performs on the matched proof:
`*.mailed` sets status `mailed` (plus tracking number when truthy);
`*.delivered` sets status `awaiting_review`, stamps `deliveredAt` with the
receipt time, and records the tracking number when truthy; any other type
leaves the row as is. -/
def applyEvent (body : WebhookBody) (now : DT) (p : ProofRow) : ProofRow :=
  if strEndsWith body.type ".mailed" then
    { p with status := .mailed
             trackingNumber := recordTracking p.trackingNumber body.trackingNumber }
  else if strEndsWith body.type ".delivered" then
    { p with status := .awaiting_review
             deliveredAt := some now
             trackingNumber := recordTracking p.trackingNumber body.trackingNumber }
  else p

/-- `Proof.findBy('resource_id', rid)`: the first stored row with the
given provider resource id. -/
def findByResource : List ProofRow → String → Option ProofRow
  | [], _ => none
  | p :: rest, rid => if p.resourceId = rid then some p else findByResource rest rid

/-- Saving the mutated row: replace the first row matching the resource
id. -/
def updateByResource (f : ProofRow → ProofRow) : List ProofRow → String → List ProofRow
  | [], _ => []
  | p :: rest, rid =>
    if p.resourceId = rid then f p :: rest else p :: updateByResource f rest rid

/-- `WebhooksController.store`: missing or falsy resource id → 204 and no
write; no matching proof → 204 and no write; otherwise apply the event's
field writes to the matched proof and answer 200.  The handler never
raises: the result is always an HTTP status and a store. -/
def webhookStore (body : WebhookBody) (now : DT) (store : List ProofRow) :
    Nat × List ProofRow :=
  match body.dataId with
  | none => (204, store)
  | some rid =>
    if rid = "" then (204, store)
    else
      match findByResource store rid with
      | none => (204, store)
      | some _ => (200, updateByResource (applyEvent body now) store rid)

/-! ## User-driven proof mutations (`app/controllers/proofs_controller.ts`) -/

/-- `ProofsController.update` ("submit review"): set rating, vendor and
notes (each `|| null`) and force status `completed`, whatever the prior
state. -/
def submitReview (p : ProofRow) (rating : Option Nat) (vendor notes : Option String) :
    ProofRow :=
  { p with qualityRating := optTruthyNat rating
           printerVendor := optTruthyStr vendor
           notes := optTruthyStr notes
           status := .completed }

/-- `ProofsController.updateStatus` (dev/ops override): set the status
directly to any of the six values, bypassing event-driven transitions. -/
def setProofStatus (p : ProofRow) (st : ProofStatus) : ProofRow :=
  { p with status := st }

/-- `ProofsController.uploadLiveProof`: after the scan upload, store the
latest scan URL when truthy; no status change. -/
def applyScanUrl (p : ProofRow) (u : Option String) : ProofRow :=
  match u with
  | some s => if s = "" then p else { p with liveProofUrl := some s }
  | none => p

/-- `ProofsController.index` thumbnail backfill: save a fetched front
thumbnail only when the row has none. -/
def backfillFrontThumbnail (p : ProofRow) (u : Option String) : ProofRow :=
  match u with
  | some s =>
    if s = "" then p
    else if p.frontThumbnailUrl = none then { p with frontThumbnailUrl := some s } else p
  | none => p

/-! ## Seed deletion (`SeedsController.destroy`) -/

/-- The per-row orphaning write: null the campaign reference and snapshot
the deleted seed's name. -/
def orphanProof (p : ProofRow) (sname : String) : ProofRow :=
  { p with seedId := none, seedName := some sname }

/-- `SeedsController.destroy`'s effect on the proof store: with
`delete_proofs === 'true'` every proof loaded via the seed's `hasMany`
(matched by `seed_id`) is deleted; otherwise the bulk update orphans the
rows matching both `seed_id` and `user_id`. -/
def destroySeed (store : List ProofRow) (seed : Seed) (userId : String)
    (deleteProofs : Bool) : List ProofRow :=
  if deleteProofs then
    store.filter fun p => !(p.seedId = some seed.id : Bool)
  else
    store.map fun p =>
      if p.seedId = some seed.id ∧ p.userId = userId then orphanProof p seed.name else p

/-! ## The size-constrained resizer: `ImageResizeService.resizeImageIfNeeded`

The filesystem and the `sharp` codec are oracles in `ResizeEnv`; a thrown
error is `none` and lands in the function-wide catch, which returns the
original input path.  Scale factors are exact rationals standing in for
the JavaScript floats (`0.9`, compounding `*= 0.9`), and `Math.round` is
`floor (x + 1/2)`. -/

structure ImgMeta where
  width : Option Nat
  height : Option Nat
  format : Option String
deriving DecidableEq, Repr

structure ResizeEnv where
  /-- `statSync(filePath).size`; `none` models a thrown fs error. -/
  origSize : Option Nat
  /-- `sharp(filePath).metadata()`; `none` models a thrown codec error. -/
  meta : Option ImgMeta
  /-- Encode at the given width/height and stat the output; `none` models
  a thrown codec or fs error. -/
  encode : Nat → Nat → Option Nat

/-- JavaScript falsiness of a nullable number (`undefined` and `0`). -/
def natFalsy : Option Nat → Bool
  | none => true
  | some k => k = 0

def supportedFormats : List String := ["jpeg", "jpg", "png"]

/-- `format && supportedFormats.includes(format.toLowerCase())`. -/
def formatSupported : Option String → Bool
  | none => false
  | some f =>
    if f = "" then false
    else (supportedFormats.map String.toList).contains (f.toList.map jsLowerChar)

/-- JavaScript `Math.round(d * num / den)` for nonnegative operands,
computed exactly over naturals: `floor(d * num / den + 1 / 2)`. -/
def jsRoundMul (d num den : Nat) : Nat := (2 * d * num + den) / (2 * den)

/-- `Math.round(dim * scale)` where the compounding scale after `k`
multiplications by `0.9` is the exact rational `9^k / 10^k` (standing in
for the JavaScript float). -/
def roundScaled (d k : Nat) : Nat := jsRoundMul d (9 ^ k) (10 ^ k)

/-- The first attempt's target dimensions: `round(0.9 * dim)` for each
side, and only when BOTH rounded values are below the 800px floor, an
aspect-derived pair whose larger side is pinned to 800
(`round(800 / aspect)` with `aspect = w / h`, i.e. `round(800 * h / w)`). -/
def initialDims (w h : Nat) : Nat × Nat :=
  let rw := roundScaled w 1
  let rh := roundScaled h 1
  if rw < 800 && rh < 800 then
    if w > h then (800, jsRoundMul 800 h w)
    else (jsRoundMul 800 w h, 800)
  else (rw, rh)

/-- The in-loop recomputation after a failed attempt with scale
`9^k / 10^k`: `Math.max(round(dim * scale), 800)` per dimension, then the
source's aspect-ratio fallback for the case where a dimension is still
below the floor (unreachable after the `max`). -/
def shrinkDims (w h k : Nat) : Nat × Nat :=
  let rw := max (roundScaled w k) 800
  let rh := max (roundScaled h k) 800
  if rw < 800 || rh < 800 then
    if w > h then (800, jsRoundMul 800 h w)
    else (jsRoundMul 800 w h, 800)
  else (rw, rh)

/-- One recorded encode attempt: the target dimensions handed to the codec
and the measured output size. -/
structure Attempt where
  width : Nat
  height : Nat
  size : Nat
deriving DecidableEq, Repr

/-- The `while (resizedSize > maxSizeBytes && attempts < maxAttempts)`
loop, with `fuel` the remaining attempt budget, `dims` the current target
dimensions and `k` the number of `0.9` factors in the current scale.
Returns the attempts made in order, or `none` when the codec threw. -/
def resizeGo (env : ResizeEnv) (w h ceiling : Nat) :
    Nat → Nat × Nat → Nat → Option (List Attempt)
  | 0, _, _ => some []
  | fuel + 1, dims, k =>
    match env.encode dims.1 dims.2 with
    | none => none
    | some sz =>
      if sz ≤ ceiling then some [⟨dims.1, dims.2, sz⟩]
      else
        match resizeGo env w h ceiling fuel (shrinkDims w h (k + 1)) (k + 1) with
        | none => none
        | some rest => some (⟨dims.1, dims.2, sz⟩ :: rest)

/-- The path of the re-encoded variant.  (The source strips the original
extension and joins the directory again; only its distinctness as a return
value matters to the contract, so the path algebra is simplified.) -/
def resizedPathFor (p : String) : String := p ++ "-resized.jpg"

/-- `ImageResizeService.resizeImageIfNeeded`: return the input path when
the file is already at or under the ceiling, when its dimensions are
unreadable, when its format is not JPEG/PNG, or when anything throws;
otherwise run up to 10 encode attempts and return the re-encoded variant's
path. -/
def resizeImageIfNeeded (env : ResizeEnv) (filePath : String) (maxSizeBytes : Nat) :
    String :=
  match env.origSize with
  | none => filePath
  | some currentSize =>
    if currentSize ≤ maxSizeBytes then filePath
    else
      match env.meta with
      | none => filePath
      | some m =>
        if natFalsy m.width || natFalsy m.height then filePath
        else if !formatSupported m.format then filePath
        else
          let w := m.width.getD 0
          let h := m.height.getD 0
          match resizeGo env w h maxSizeBytes 10 (initialDims w h) 1 with
          | none => filePath
          | some _ => resizedPathFor filePath

/-! ## Theorems -/

/-- The per-address loop splits the enumerated recipients into the
successful ones (in order, one new proof each) and the failing ones (in
order, one failure record each). -/
theorem runLoop_eq (env : RunEnv) (user : User) (seed : Seed) :
    ∀ l : List (Nat × Address),
      runLoop env user seed l =
        ((l.filter fun p => attemptOk env seed p.1 p.2).map (proofOf env user seed),
         (l.filter fun p => !attemptOk env seed p.1 p.2).map (failureOf env seed))
  | [] => rfl
  | (i, a) :: rest => by
    have ih := runLoop_eq env user seed rest
    cases hA : attemptOne env seed i a with
    | ok out =>
      simp only [runLoop, ih, hA, List.filter_cons, attemptOk, Bool.not_true,
        Bool.not_false, if_pos, if_neg, List.map_cons]
      simp [proofOf, hA]
    | error e =>
      simp only [runLoop, ih, hA, List.filter_cons, attemptOk, Bool.not_true,
        Bool.not_false, List.map_cons]
      simp [failureOf, hA]

theorem proofOf_status (env : RunEnv) (user : User) (seed : Seed) (p : Nat × Address) :
    (proofOf env user seed p).status = ProofStatus.created := by
  unfold proofOf
  cases attemptOne env seed p.1 p.2 <;> rfl

theorem failureOf_index (env : RunEnv) (seed : Seed) (p : Nat × Address) :
    (failureOf env seed p).addressIndex = p.1 := by
  unfold failureOf
  cases attemptOne env seed p.1 p.2 <;> rfl

/-- With provider credentials present, `runSeed` reaches the loop and the
trailing bookkeeping and returns `ok`. -/
theorem runSeed_ok (env : RunEnv) (seed : Seed) (user : User) (now : DT)
    (hkey : strTruthy user.lobApiKey = true) :
    runSeed env seed user now = .ok
      { proofs := (runLoop env user seed seed.toAddress.enum).1
        errors := (runLoop env user seed seed.toAddress.enum).2
        seed :=
          { seed with
            lastRunAt := some now
            nextRunAt := seed.computeNextRun now
            status := if seed.cadence = .one_time then .paused else seed.status } } := by
  simp [runSeed, hkey]

/-- C1: for a seed whose owner holds provider credentials, with N
recipients of which K fail the per-recipient creation attempt, `runSeed`
returns N−K successes and K failure records, the created proof rows all
start in status `created`, every recipient is attempted in list order (the
result lists are the order-preserving split of the enumerated recipient
list), and each failure record carries the failing recipient's address
index — one failure never prevents later recipients from being
attempted. -/
theorem runSeed_fanout_partial_failure
    (env : RunEnv) (seed : Seed) (user : User) (now : DT)
    (hkey : strTruthy user.lobApiKey = true) :
    ∃ r : RunSeedResult,
      runSeed env seed user now = .ok r ∧
      r.errors.length =
        (seed.toAddress.enum.filter fun p => !attemptOk env seed p.1 p.2).length ∧
      r.proofs.length =
        seed.toAddress.length -
          (seed.toAddress.enum.filter fun p => !attemptOk env seed p.1 p.2).length ∧
      r.proofs.length + r.errors.length = seed.toAddress.length ∧
      (∀ q ∈ r.proofs, q.status = ProofStatus.created) ∧
      r.proofs =
        (seed.toAddress.enum.filter fun p => attemptOk env seed p.1 p.2).map
          (proofOf env user seed) ∧
      r.errors.map FailureRecord.addressIndex =
        (seed.toAddress.enum.filter fun p => !attemptOk env seed p.1 p.2).map Prod.fst := by
  have hsplit := List.length_eq_length_filter_add
    (l := seed.toAddress.enum) (fun p => attemptOk env seed p.1 p.2)
  have hlen : seed.toAddress.enum.length = seed.toAddress.length := List.enum_length
  refine ⟨_, runSeed_ok env seed user now hkey, ?_, ?_, ?_, ?_, ?_, ?_⟩ <;>
    simp only [runLoop_eq]
  · simp
  · simp only [List.length_map]
    omega
  · simp only [List.length_map]
    omega
  · intro q hq
    simp only [List.mem_map] at hq
    obtain ⟨p, _, rfl⟩ := hq
    exact proofOf_status env user seed p
  · rw [List.map_map]
    exact List.map_congr_left fun p _ => failureOf_index env seed p

/-- C2: whenever the run reaches the post-loop bookkeeping (i.e. the
credential check passed), and regardless of how many recipients failed,
the returned seed has `lastRunAt = now`, `nextRunAt` given by the cadence
rule (null for `one_time`, now + 7 days for `weekly`, now + 1 calendar
month for `monthly`), and its status is forced to `paused` exactly when
the cadence is `one_time`. -/
theorem runSeed_schedule_bookkeeping
    (env : RunEnv) (seed : Seed) (user : User) (now : DT)
    (hkey : strTruthy user.lobApiKey = true) :
    ∃ r : RunSeedResult,
      runSeed env seed user now = .ok r ∧
      r.seed.lastRunAt = some now ∧
      r.seed.nextRunAt = seed.computeNextRun now ∧
      (seed.cadence = .one_time →
        r.seed.nextRunAt = none ∧ r.seed.status = .paused) ∧
      (seed.cadence = .weekly → r.seed.nextRunAt = some (now.plusDays 7)) ∧
      (seed.cadence = .monthly → r.seed.nextRunAt = some (now.plusMonths 1)) ∧
      (seed.cadence ≠ .one_time → r.seed.status = seed.status) := by
  refine ⟨_, runSeed_ok env seed user now hkey, rfl, rfl, ?_, ?_, ?_, ?_⟩
  · intro hc
    constructor
    · simp [Seed.computeNextRun, hc]
    · simp [hc]
  · intro hc
    simp [Seed.computeNextRun, hc, DT.plusWeeks]
  · intro hc
    simp [Seed.computeNextRun, hc]
  · intro hc
    simp [hc]

/-! ### Concrete data for witnesses -/

def demoAddress : Address :=
  { name := some "Ada", company := none, addressLine1 := "1 Main St"
    addressLine2 := none, addressCity := "Reno", addressState := "NV"
    addressZip := "89501", addressCountry := none, phone := none
    email := none, description := none }

def demoUser : User := { id := "u1", lobApiKey := some "live_key" }

def demoSeed : Seed :=
  { id := "s1", userId := "u1", publicId := some "SEED01", name := "Launch"
    front := some "tmpl_front", back := some "tmpl_back", cadence := .weekly
    toAddress := [demoAddress, demoAddress, demoAddress], status := .active
    lastRunAt := none, nextRunAt := none }

def demoNow : DT := { year := 2025, month := 10, day := 11, msOfDay := 0 }

def demoOutcome : LobOutcome :=
  { id := "psc_ok", url := "https://lob.example/u", thumbnailUrl := some "t"
    frontThumbnailUrl := some "ft", backThumbnailUrl := some "bt" }

/-- A provider that fails exactly for the recipient at index 1. -/
def demoEnv : RunEnv :=
  { createPostcard := fun i _ _ _ _ =>
      if i = 1 then .error { message := some "postcard rejected", body := none }
      else .ok demoOutcome
    presign := fun u => .ok u
    hexToken := fun _ => "A1B2C3" }

/-- A provider that fails for every recipient. -/
def demoEnvFail : RunEnv :=
  { createPostcard := fun _ _ _ _ _ => .error { message := some "down", body := none }
    presign := fun u => .ok u
    hexToken := fun _ => "FFFFFF" }

/-- C1 witness: three recipients, the provider failing exactly at index 1,
give two successes and one failure carrying address index 1. -/
theorem runSeed_fanout_partial_failure_witness :
    strTruthy demoUser.lobApiKey = true ∧
    ∃ r : RunSeedResult,
      runSeed demoEnv demoSeed demoUser demoNow = .ok r ∧
      r.proofs.length = 2 ∧ r.errors.length = 1 ∧
      r.errors.map FailureRecord.addressIndex = [1] := by
  refine ⟨rfl, ?_⟩
  obtain ⟨r, hr, hlenE, hlenP, _, _, _, hidx⟩ :=
    runSeed_fanout_partial_failure demoEnv demoSeed demoUser demoNow rfl
  exact ⟨r, hr, by rw [hlenP]; decide, by rw [hlenE]; decide, by rw [hidx]; decide⟩

/-- C2 witness: even with every recipient failing, the weekly seed's
bookkeeping still runs: `lastRunAt` is stamped and `nextRunAt` advances by
seven days. -/
theorem runSeed_schedule_bookkeeping_witness :
    strTruthy demoUser.lobApiKey = true ∧
    ∃ r : RunSeedResult,
      runSeed demoEnvFail demoSeed demoUser demoNow = .ok r ∧
      r.seed.lastRunAt = some demoNow ∧
      r.seed.nextRunAt = some (demoNow.plusDays 7) := by
  refine ⟨rfl, ?_⟩
  obtain ⟨r, hr, hlast, _, _, hweek, _, _⟩ :=
    runSeed_schedule_bookkeeping demoEnvFail demoSeed demoUser demoNow rfl
  exact ⟨r, hr, hlast, hweek rfl⟩

/-! ### Webhook lemmas -/

theorem leadMatch_iff : ∀ p l : List Char, leadMatch p l = true ↔ List.take p.length l = p
  | [], l => by simp [leadMatch]
  | _ :: _, [] => by simp [leadMatch]
  | a :: as, b :: bs => by
    simp only [leadMatch, Bool.and_eq_true, decide_eq_true_eq, List.length_cons,
      List.take_succ_cons, List.cons.injEq, leadMatch_iff as bs]
    exact and_congr_left fun _ => eq_comm

/-- A type string ending in `.delivered` never ends in `.mailed`: the
webhook handler's two branches are mutually exclusive. -/
theorem delivered_not_mailed (s : String) :
    strEndsWith s ".delivered" = true → strEndsWith s ".mailed" = false := by
  intro h
  unfold strEndsWith at h ⊢
  rw [leadMatch_iff] at h
  rw [Bool.eq_false_iff]
  intro hm
  rw [leadMatch_iff] at hm
  have h7 : List.take 7 s.toList.reverse =
      List.take 7 (List.take 10 s.toList.reverse) := by
    rw [List.take_take]
    norm_num
  rw [show (10 : Nat) = (".delivered".toList.reverse).length from rfl, h] at h7
  rw [show (".mailed".toList.reverse).length = 7 from rfl] at hm
  rw [hm] at h7
  exact absurd h7 (by decide)

theorem applyEvent_resourceId (body : WebhookBody) (now : DT) (p : ProofRow) :
    (applyEvent body now p).resourceId = p.resourceId := by
  unfold applyEvent
  split <;> try rfl
  split <;> rfl

theorem recordTracking_idem (old tn : Option String) :
    recordTracking (recordTracking old tn) tn = recordTracking old tn := by
  unfold recordTracking
  cases tn with
  | none => rfl
  | some t =>
    by_cases ht : t = "" <;> simp [ht]

theorem applyEvent_idem (body : WebhookBody) (now : DT) (p : ProofRow) :
    applyEvent body now (applyEvent body now p) = applyEvent body now p := by
  unfold applyEvent
  by_cases hm : strEndsWith body.type ".mailed" = true
  · simp [hm, recordTracking_idem]
  · rw [Bool.not_eq_true] at hm
    by_cases hd : strEndsWith body.type ".delivered" = true
    · simp [hm, hd, recordTracking_idem]
    · rw [Bool.not_eq_true] at hd
      simp [hm, hd]

theorem findByResource_update (f : ProofRow → ProofRow) (rid : String)
    (hf : ∀ q, (f q).resourceId = q.resourceId) :
    ∀ s : List ProofRow,
      findByResource (updateByResource f s rid) rid = (findByResource s rid).map f
  | [] => rfl
  | p :: rest => by
    by_cases hp : p.resourceId = rid
    · simp [updateByResource, findByResource, hp, hf]
    · simp [updateByResource, findByResource, hp, findByResource_update f rid hf rest]

theorem updateByResource_comp (f g : ProofRow → ProofRow) (rid : String)
    (hf : ∀ q, (f q).resourceId = q.resourceId) :
    ∀ s : List ProofRow,
      updateByResource g (updateByResource f s rid) rid =
        updateByResource (fun q => g (f q)) s rid
  | [] => rfl
  | p :: rest => by
    by_cases hp : p.resourceId = rid
    · simp [updateByResource, hp, hf]
    · simp [updateByResource, hp, updateByResource_comp f g rid hf rest]

/-- C3: for the stored proof matched by the event's resource id, a
`*.mailed` event sets status `mailed` and records a present (non-empty)
tracking number, leaving `deliveredAt` alone; a `*.delivered` event sets
status `awaiting_review`, stamps `deliveredAt` with the receipt time, and
records a present tracking number; and re-applying the same event to the
resulting store leaves it unchanged (idempotent field writes). -/
theorem webhook_event_transitions
    (body : WebhookBody) (now : DT) (store : List ProofRow) (rid : String) (p : ProofRow)
    (hid : body.dataId = some rid) (hne : rid ≠ "")
    (hfind : findByResource store rid = some p) :
    webhookStore body now store =
      (200, updateByResource (applyEvent body now) store rid) ∧
    (strEndsWith body.type ".mailed" = true →
      (applyEvent body now p).status = .mailed ∧
      (∀ t, body.trackingNumber = some t → t ≠ "" →
        (applyEvent body now p).trackingNumber = some t) ∧
      (applyEvent body now p).deliveredAt = p.deliveredAt) ∧
    (strEndsWith body.type ".delivered" = true →
      (applyEvent body now p).status = .awaiting_review ∧
      (applyEvent body now p).deliveredAt = some now ∧
      (∀ t, body.trackingNumber = some t → t ≠ "" →
        (applyEvent body now p).trackingNumber = some t)) ∧
    (webhookStore body now (webhookStore body now store).2).2 =
      (webhookStore body now store).2 := by
  have hres := applyEvent_resourceId body now
  have hrun : webhookStore body now store =
      (200, updateByResource (applyEvent body now) store rid) := by
    unfold webhookStore
    rw [hid]
    simp [hne, hfind]
  have hfind2 : findByResource (updateByResource (applyEvent body now) store rid) rid =
      some (applyEvent body now p) := by
    rw [findByResource_update _ _ hres store, hfind]
    rfl
  refine ⟨hrun, ?_, ?_, ?_⟩
  · intro hm
    refine ⟨?_, ?_, ?_⟩
    · simp [applyEvent, hm]
    · intro t ht hts
      simp [applyEvent, hm, recordTracking, ht, hts]
    · simp [applyEvent, hm]
  · intro hd
    have hm := delivered_not_mailed body.type hd
    refine ⟨?_, ?_, ?_⟩
    · simp [applyEvent, hm, hd]
    · simp [applyEvent, hm, hd]
    · intro t ht hts
      simp [applyEvent, hm, hd, recordTracking, ht, hts]
  · rw [hrun]
    unfold webhookStore
    rw [hid]
    simp only [hne, hfind2, if_neg, ite_false]
    rw [updateByResource_comp _ _ _ hres store]
    rw [show (fun q => applyEvent body now (applyEvent body now q)) = applyEvent body now
      from funext (applyEvent_idem body now)]

/-- C4: an event with a missing or falsy resource id, or one matching no
stored proof, leaves the store untouched and answers 204; and every event
whatsoever is answered with HTTP 200 or 204 (the handler is total — it
never raises). -/
theorem webhook_discard_and_always_ok
    (body : WebhookBody) (now : DT) (store : List ProofRow) :
    (body.dataId = none → webhookStore body now store = (204, store)) ∧
    (body.dataId = some "" → webhookStore body now store = (204, store)) ∧
    (∀ rid, body.dataId = some rid → findByResource store rid = none →
      webhookStore body now store = (204, store)) ∧
    ((webhookStore body now store).1 = 200 ∨ (webhookStore body now store).1 = 204) := by
  refine ⟨?_, ?_, ?_, ?_⟩
  · intro h
    simp [webhookStore, h]
  · intro h
    simp [webhookStore, h]
  · intro rid h hfind
    simp [webhookStore, h, hfind]
  · unfold webhookStore
    cases body.dataId with
    | none => right; rfl
    | some rid =>
      by_cases hne : rid = ""
      · simp [hne]
      · simp only [hne, if_neg, ite_false]
        cases findByResource store rid with
        | none => right; rfl
        | some q => left; rfl

/-- A concrete stored proof used by the webhook witnesses. -/
def demoProof : ProofRow :=
  { id := "p1", userId := "u1", seedId := some "s1", seedName := none
    publicId := "A1B2C3", resourceId := "psc_1", lobUrl := "https://lob.example/u"
    thumbnailUrl := some "t", frontThumbnailUrl := some "ft"
    backThumbnailUrl := some "bt", status := .created, trackingNumber := none
    mailedAt := none, deliveredAt := none, qualityRating := none
    printerVendor := none, notes := none, liveProofUrl := none }

def demoMailedBody : WebhookBody :=
  { type := "postcard.mailed", dataId := some "psc_1", trackingNumber := some "TRK1" }

def demoUnmatchedBody : WebhookBody :=
  { type := "postcard.created", dataId := some "psc_ghost", trackingNumber := none }

/-- C3 witness: a `postcard.mailed` event for the stored proof sets status
`mailed` and records the tracking number. -/
theorem webhook_event_transitions_witness :
    demoMailedBody.dataId = some "psc_1" ∧ ("psc_1" : String) ≠ "" ∧
    findByResource [demoProof] "psc_1" = some demoProof ∧
    (applyEvent demoMailedBody demoNow demoProof).status = .mailed ∧
    (applyEvent demoMailedBody demoNow demoProof).trackingNumber = some "TRK1" := by
  have H := webhook_event_transitions demoMailedBody demoNow [demoProof] "psc_1" demoProof
    rfl (by decide) rfl
  exact ⟨rfl, by decide, rfl, (H.2.1 (by decide)).1,
    (H.2.1 (by decide)).2.1 "TRK1" rfl (by decide)⟩

/-- C4 witness: an event whose resource id matches nothing is discarded
with a 204 and an unchanged store. -/
theorem webhook_discard_and_always_ok_witness :
    findByResource [demoProof] "psc_ghost" = none ∧
    webhookStore demoUnmatchedBody demoNow [demoProof] = (204, [demoProof]) := by
  have H := webhook_discard_and_always_ok demoUnmatchedBody demoNow [demoProof]
  exact ⟨by decide, H.2.2.1 "psc_ghost" rfl (by decide)⟩

/-! ### Proof-row mutation lemmas -/

/-- Every proof a successful `runSeed` returns was built by `mkProof` from
the provider response of some enumerated recipient. -/
theorem mem_runSeed_proofs (env : RunEnv) (seed : Seed) (user : User) (t : DT)
    (r : RunSeedResult) (hrun : runSeed env seed user t = .ok r)
    (q : ProofRow) (hq : q ∈ r.proofs) :
    ∃ pa out, pa ∈ seed.toAddress.enum ∧
      attemptOne env seed pa.1 pa.2 = .ok out ∧
      q = mkProof user seed (env.hexToken pa.1) out := by
  unfold runSeed at hrun
  by_cases hkey : strTruthy user.lobApiKey = false
  · simp [hkey] at hrun
  · rw [if_neg hkey] at hrun
    rw [Except.ok.injEq] at hrun
    rw [← hrun] at hq
    simp only [runLoop_eq, List.mem_map, List.mem_filter] at hq
    obtain ⟨pa, ⟨hmem, hok⟩, rfl⟩ := hq
    unfold attemptOk at hok
    cases hA : attemptOne env seed pa.1 pa.2 with
    | error e => rw [hA] at hok; simp at hok
    | ok out =>
      refine ⟨pa, out, hmem, hA, ?_⟩
      unfold proofOf
      rw [hA]

/-- C7: no operation in the system rewrites a proof's provider resource
id: the webhook field writes, review submission, the explicit status
override, the photo upload, the thumbnail backfill and seed-deletion
orphaning all preserve it; and every proof created by `runSeed` takes its
resource id from the mail-provider's `createPostcard` response for the
recipient it was created for. -/
theorem resourceId_assigned_once_at_creation
    (body : WebhookBody) (now : DT) (p : ProofRow) (rating : Option Nat)
    (vendor notes : Option String) (st : ProofStatus) (u : Option String)
    (sname : String) (env : RunEnv) (seed : Seed) (user : User) (t : DT)
    (r : RunSeedResult) (hrun : runSeed env seed user t = .ok r) :
    (applyEvent body now p).resourceId = p.resourceId ∧
    (submitReview p rating vendor notes).resourceId = p.resourceId ∧
    (setProofStatus p st).resourceId = p.resourceId ∧
    (applyScanUrl p u).resourceId = p.resourceId ∧
    (backfillFrontThumbnail p u).resourceId = p.resourceId ∧
    (orphanProof p sname).resourceId = p.resourceId ∧
    (∀ q ∈ r.proofs, ∃ i a out, (i, a) ∈ seed.toAddress.enum ∧
      attemptOne env seed i a = .ok out ∧ q.resourceId = out.id) := by
  refine ⟨applyEvent_resourceId body now p, rfl, rfl, ?_, ?_, rfl, ?_⟩
  · unfold applyScanUrl
    cases u with
    | none => rfl
    | some s => by_cases hs : s = "" <;> simp [hs]
  · unfold backfillFrontThumbnail
    cases u with
    | none => rfl
    | some s =>
      by_cases hs : s = "" <;> by_cases hf : p.frontThumbnailUrl = none <;> simp [hs, hf]
  · intro q hq
    obtain ⟨pa, out, hmem, hA, rfl⟩ := mem_runSeed_proofs env seed user t r hrun q hq
    exact ⟨pa.1, pa.2, out, by simpa using hmem, hA, rfl⟩

/-- C7 witness: a mailed webhook write, a review submission, a status
override, a scan-url write, a backfill and an orphaning all leave the
demo proof's resource id unchanged, and the proofs created by the demo
run carry provider resource ids. -/
theorem resourceId_assigned_once_at_creation_witness :
    runSeed demoEnv demoSeed demoUser demoNow = .ok
      { proofs := (runLoop demoEnv demoUser demoSeed demoSeed.toAddress.enum).1
        errors := (runLoop demoEnv demoUser demoSeed demoSeed.toAddress.enum).2
        seed :=
          { demoSeed with
            lastRunAt := some demoNow
            nextRunAt := demoSeed.computeNextRun demoNow
            status :=
              if demoSeed.cadence = .one_time then .paused else demoSeed.status } } ∧
    (applyEvent demoMailedBody demoNow demoProof).resourceId = demoProof.resourceId ∧
    (submitReview demoProof (some 4) (some "Acme") none).resourceId =
      demoProof.resourceId ∧
    (orphanProof demoProof "Launch").resourceId = demoProof.resourceId := by
  have hrun := runSeed_ok demoEnv demoSeed demoUser demoNow rfl
  have H := resourceId_assigned_once_at_creation demoMailedBody demoNow demoProof
    (some 4) (some "Acme") none ProofStatus.completed (some "https://scan.example/1")
    "Launch" demoEnv demoSeed demoUser demoNow _ hrun
  exact ⟨hrun, H.1, H.2.1, H.2.2.2.2.2.1⟩

/-- C8: for a proof in any current status, submitting a review with a
validated rating writes the rating, vendor and notes and forces the status
to `completed` — an unguarded override of whatever state the proof was
in. -/
theorem submitReview_forces_completed
    (p : ProofRow) (k : Nat) (vendor notes : Option String)
    (h1 : 1 ≤ k) (h5 : k ≤ 5) :
    (submitReview p (some k) vendor notes).status = .completed ∧
    (submitReview p (some k) vendor notes).qualityRating = some k ∧
    (∀ v, vendor = some v → v ≠ "" →
      (submitReview p (some k) vendor notes).printerVendor = some v) ∧
    (∀ s, notes = some s → s ≠ "" →
      (submitReview p (some k) vendor notes).notes = some s) := by
  have hk : k ≠ 0 := by omega
  refine ⟨rfl, ?_, ?_, ?_⟩
  · simp [submitReview, optTruthyNat, hk]
  · intro v hv hvne
    simp [submitReview, optTruthyStr, hv, hvne]
  · intro s hs hsne
    simp [submitReview, optTruthyStr, hs, hsne]

/-- C8 witness: reviewing the demo proof (status `created`) with rating 4
completes it directly from `created`. -/
theorem submitReview_forces_completed_witness :
    (1 ≤ 4 ∧ 4 ≤ 5) ∧ demoProof.status = .created ∧
    (submitReview demoProof (some 4) (some "Acme") (some "crisp")).status = .completed ∧
    (submitReview demoProof (some 4) (some "Acme") (some "crisp")).qualityRating = some 4 ∧
    (submitReview demoProof (some 4) (some "Acme") (some "crisp")).printerVendor =
      some "Acme" := by
  have H := submitReview_forces_completed demoProof 4 (some "Acme") (some "crisp")
    (by decide) (by decide)
  exact ⟨⟨by decide, by decide⟩, rfl, H.1, H.2.1, H.2.2.1 "Acme" rfl (by decide)⟩

/-- C10: no modelled operation ever writes the `mailedAt` field the data
model declares: a `*.mailed` event sets status and tracking but leaves
`mailedAt` untouched, and so do review submission, the status override,
the photo upload, the thumbnail backfill and orphaning; proofs are created
with a null `mailedAt`. -/
theorem mailedAt_never_assigned
    (body : WebhookBody) (now : DT) (p : ProofRow) (rating : Option Nat)
    (vendor notes : Option String) (st : ProofStatus) (u : Option String)
    (sname : String) (env : RunEnv) (seed : Seed) (user : User) (t : DT)
    (r : RunSeedResult) (hrun : runSeed env seed user t = .ok r) :
    (applyEvent body now p).mailedAt = p.mailedAt ∧
    (strEndsWith body.type ".mailed" = true →
      (applyEvent body now p).status = .mailed ∧
      (applyEvent body now p).mailedAt = p.mailedAt) ∧
    (submitReview p rating vendor notes).mailedAt = p.mailedAt ∧
    (setProofStatus p st).mailedAt = p.mailedAt ∧
    (applyScanUrl p u).mailedAt = p.mailedAt ∧
    (backfillFrontThumbnail p u).mailedAt = p.mailedAt ∧
    (orphanProof p sname).mailedAt = p.mailedAt ∧
    (∀ q ∈ r.proofs, q.mailedAt = none) := by
  have hpres : (applyEvent body now p).mailedAt = p.mailedAt := by
    unfold applyEvent
    split
    · rfl
    · split <;> rfl
  refine ⟨hpres, ?_, rfl, rfl, ?_, ?_, rfl, ?_⟩
  · intro hm
    exact ⟨by simp [applyEvent, hm], hpres⟩
  · unfold applyScanUrl
    cases u with
    | none => rfl
    | some s => by_cases hs : s = "" <;> simp [hs]
  · unfold backfillFrontThumbnail
    cases u with
    | none => rfl
    | some s =>
      by_cases hs : s = "" <;> by_cases hf : p.frontThumbnailUrl = none <;> simp [hs, hf]
  · intro q hq
    obtain ⟨pa, out, _, _, rfl⟩ := mem_runSeed_proofs env seed user t r hrun q hq
    rfl

/-- C10 witness: the demo mailed event leaves `mailedAt` null on the demo
proof, and the demo run creates proofs with `mailedAt` null. -/
theorem mailedAt_never_assigned_witness :
    strEndsWith demoMailedBody.type ".mailed" = true ∧
    (applyEvent demoMailedBody demoNow demoProof).status = .mailed ∧
    (applyEvent demoMailedBody demoNow demoProof).mailedAt = demoProof.mailedAt ∧
    (submitReview demoProof (some 4) none none).mailedAt = demoProof.mailedAt := by
  have hrun := runSeed_ok demoEnv demoSeed demoUser demoNow rfl
  have H := mailedAt_never_assigned demoMailedBody demoNow demoProof (some 4) none none
    ProofStatus.completed none "Launch" demoEnv demoSeed demoUser demoNow _ hrun
  exact ⟨by decide, (H.2.1 (by decide)).1, (H.2.1 (by decide)).2, H.2.2.1⟩

/-- C9 counterexample: `SeedsController.destroy` invoked with
`delete_proofs === 'true'` deletes the seed's proofs instead of orphaning
them — the proof row does not survive, refuting the claim as stated for
that code path. -/
theorem seed_destroy_cascade_counterexample :
    demoProof.seedId = some demoSeed.id ∧
    destroySeed [demoProof] demoSeed demoSeed.userId true = [] :=
  ⟨rfl, by decide⟩

/-- C9 (amended): when the `delete_proofs` option is NOT set, deleting a
seed orphans its proofs: every proof of the seed (and its owner) survives
at its position with `seedId` nulled and `seedName` snapshotting the
deleted seed's name, all other fields unchanged; rows not matching both
keys survive entirely unchanged. -/
theorem seed_destroy_orphan_amended
    (store : List ProofRow) (seed : Seed) (uid : String) :
    (destroySeed store seed uid false).length = store.length ∧
    (∀ i p, store.get? i = some p →
      ∃ q, (destroySeed store seed uid false).get? i = some q ∧
        ((p.seedId = some seed.id ∧ p.userId = uid) →
          q.seedId = none ∧ q.seedName = some seed.name ∧
          q.resourceId = p.resourceId ∧ q.status = p.status ∧
          q.trackingNumber = p.trackingNumber ∧ q.mailedAt = p.mailedAt ∧
          q.deliveredAt = p.deliveredAt ∧ q.qualityRating = p.qualityRating ∧
          q.printerVendor = p.printerVendor ∧ q.notes = p.notes ∧
          q.liveProofUrl = p.liveProofUrl ∧ q.publicId = p.publicId ∧
          q.userId = p.userId ∧ q.lobUrl = p.lobUrl ∧ q.id = p.id ∧
          q.thumbnailUrl = p.thumbnailUrl ∧
          q.frontThumbnailUrl = p.frontThumbnailUrl ∧
          q.backThumbnailUrl = p.backThumbnailUrl) ∧
        (¬(p.seedId = some seed.id ∧ p.userId = uid) → q = p)) := by
  refine ⟨by simp [destroySeed], ?_⟩
  intro i p hp
  have hq : (destroySeed store seed uid false).get? i =
      some (if p.seedId = some seed.id ∧ p.userId = uid
        then orphanProof p seed.name else p) := by
    have hp' : store[i]? = some p := by simpa using hp
    simp [destroySeed, List.getElem?_map, hp']
  by_cases hc : p.seedId = some seed.id ∧ p.userId = uid
  · refine ⟨orphanProof p seed.name, ?_, ?_, ?_⟩
    · rw [hq, if_pos hc]
    · intro _
      exact ⟨rfl, rfl, rfl, rfl, rfl, rfl, rfl, rfl, rfl, rfl, rfl, rfl, rfl, rfl,
        rfl, rfl, rfl, rfl⟩
    · intro hnc
      exact absurd hc hnc
  · refine ⟨p, ?_, ?_, ?_⟩
    · rw [hq, if_neg hc]
    · intro hc2
      exact absurd hc2 hc
    · intro _
      rfl

/-- C9 witness: orphaning the demo proof (owned by the deleted demo seed's
owner) nulls its seed reference, snapshots the seed name and keeps its
resource id. -/
theorem seed_destroy_orphan_amended_witness :
    [demoProof].get? 0 = some demoProof ∧
    ∃ q, (destroySeed [demoProof] demoSeed "u1" false).get? 0 = some q ∧
      q.seedId = none ∧ q.seedName = some demoSeed.name ∧
      q.resourceId = demoProof.resourceId := by
  obtain ⟨q, hq, horph, _⟩ :=
    (seed_destroy_orphan_amended [demoProof] demoSeed "u1").2 0 demoProof rfl
  have h := horph ⟨rfl, rfl⟩
  exact ⟨rfl, q, hq, h.1, h.2.1, h.2.2.1⟩

/-! ### Resizer lemmas -/

/-- The loop's trace is bounded by the attempt budget, is nonempty when
any budget is available, and stops either because the last attempt fits
the ceiling or because the budget was exhausted. -/
theorem resizeGo_spec (env : ResizeEnv) (w h ceiling : Nat) :
    ∀ (fuel : Nat) (dims : Nat × Nat) (k : Nat) (tr : List Attempt),
      resizeGo env w h ceiling fuel dims k = some tr →
      tr.length ≤ fuel ∧ (0 < fuel → tr ≠ []) ∧
      ((∃ a, tr.getLast? = some a ∧ a.size ≤ ceiling) ∨ tr.length = fuel)
  | 0, dims, k, tr => by
    intro hgo
    unfold resizeGo at hgo
    rw [Option.some.injEq] at hgo
    subst hgo
    exact ⟨Nat.le_refl 0, fun hf => absurd hf (by omega), Or.inr rfl⟩
  | fuel + 1, dims, k, tr => by
    intro hgo
    unfold resizeGo at hgo
    cases henc : env.encode dims.1 dims.2 with
    | none => simp [henc] at hgo
    | some sz =>
      simp only [henc] at hgo
      by_cases hsz : sz ≤ ceiling
      · rw [if_pos hsz, Option.some.injEq] at hgo
        subst hgo
        exact ⟨by simp, fun _ => by simp,
          Or.inl ⟨⟨dims.1, dims.2, sz⟩, rfl, hsz⟩⟩
      · rw [if_neg hsz] at hgo
        cases hrec : resizeGo env w h ceiling fuel (shrinkDims w h (k + 1)) (k + 1) with
        | none => simp [hrec] at hgo
        | some rest =>
          simp only [hrec] at hgo
          rw [Option.some.injEq] at hgo
          subst hgo
          obtain ⟨hlen, _, hlast⟩ := resizeGo_spec env w h ceiling fuel _ (k + 1) rest hrec
          refine ⟨by simpa using Nat.succ_le_succ hlen, fun _ => by simp, ?_⟩
          cases hlast with
          | inr hfull => exact Or.inr (by simp [hfull])
          | inl hfit =>
            obtain ⟨a, hga, hsa⟩ := hfit
            cases rest with
            | nil => exact absurd hga (by simp)
            | cons b bs =>
              exact Or.inl ⟨a, by rwa [List.getLast?_cons_cons], hsa⟩

/-- The aspect-ratio fallback inside the loop's recomputation is dead
code: after the per-dimension `Math.max(·, 800)` neither dimension can be
below the floor, so the recomputed pair is exactly the per-dimension
clamp. -/
theorem shrinkDims_eq (w h k : Nat) :
    shrinkDims w h k = (max (roundScaled w k) 800, max (roundScaled h k) 800) := by
  unfold shrinkDims
  have h1 : ¬ max (roundScaled w k) 800 < 800 := Nat.not_lt.mpr (Nat.le_max_right _ _)
  have h2 : ¬ max (roundScaled h k) 800 < 800 := Nat.not_lt.mpr (Nat.le_max_right _ _)
  simp [h1, h2]

/-- Every attempt in the loop's trace encodes at the dimensions the source
computes: the entry pair for the first attempt, and the per-dimension
clamped pair for the `j`-th shrink. -/
theorem resizeGo_get (env : ResizeEnv) (w h ceiling : Nat) :
    ∀ (fuel : Nat) (dims : Nat × Nat) (k : Nat) (tr : List Attempt),
      resizeGo env w h ceiling fuel dims k = some tr →
      ∀ (j : Nat) (hj : j < tr.length),
        ((tr.get ⟨j, hj⟩).width, (tr.get ⟨j, hj⟩).height) =
          if j = 0 then dims else shrinkDims w h (k + j)
  | 0, dims, k, tr => by
    intro hgo
    unfold resizeGo at hgo
    rw [Option.some.injEq] at hgo
    subst hgo
    intro j hj
    exact absurd hj (by simp)
  | fuel + 1, dims, k, tr => by
    intro hgo
    unfold resizeGo at hgo
    cases henc : env.encode dims.1 dims.2 with
    | none => simp [henc] at hgo
    | some sz =>
      simp only [henc] at hgo
      by_cases hsz : sz ≤ ceiling
      · rw [if_pos hsz, Option.some.injEq] at hgo
        subst hgo
        intro j hj
        cases j with
        | zero => simp
        | succ j' => exact absurd hj (by simp)
      · rw [if_neg hsz] at hgo
        cases hrec : resizeGo env w h ceiling fuel (shrinkDims w h (k + 1)) (k + 1) with
        | none => simp [hrec] at hgo
        | some rest =>
          simp only [hrec] at hgo
          rw [Option.some.injEq] at hgo
          subst hgo
          intro j hj
          cases j with
          | zero => simp
          | succ j' =>
            have hj' : j' < rest.length := by simpa using hj
            have ih := resizeGo_get env w h ceiling fuel _ (k + 1) rest hrec j' hj'
            have hget : (⟨dims.1, dims.2, sz⟩ :: rest).get ⟨j' + 1, hj⟩ =
                rest.get ⟨j', hj'⟩ := rfl
            rw [hget, ih]
            cases j' with
            | zero => simp
            | succ j'' =>
              have harith : k + 1 + (j'' + 1) = k + (j'' + 1 + 1) := by omega
              simp [harith]

/-- C5: the resizer never raises and always returns a path — either the
input path or the re-encoded variant's path.  It returns the input path
unchanged when the file is already at or under the ceiling, when the stat
or metadata call throws, when the dimensions are unreadable, when the
format is outside the JPEG/PNG whitelist, or when the codec throws during
the loop; when the loop completes, it returns the variant's path and
either the last attempt fits the ceiling or all 10 attempts were used. -/
theorem resize_never_raises_contract (env : ResizeEnv) (p : String) (ceiling : Nat) :
    (resizeImageIfNeeded env p ceiling = p ∨
      resizeImageIfNeeded env p ceiling = resizedPathFor p) ∧
    (env.origSize = none → resizeImageIfNeeded env p ceiling = p) ∧
    (∀ sz, env.origSize = some sz → sz ≤ ceiling →
      resizeImageIfNeeded env p ceiling = p) ∧
    (env.meta = none → resizeImageIfNeeded env p ceiling = p) ∧
    (∀ m, env.meta = some m → (natFalsy m.width || natFalsy m.height) = true →
      resizeImageIfNeeded env p ceiling = p) ∧
    (∀ m, env.meta = some m → formatSupported m.format = false →
      resizeImageIfNeeded env p ceiling = p) ∧
    (∀ sz m, env.origSize = some sz → ¬ sz ≤ ceiling → env.meta = some m →
      natFalsy m.width = false → natFalsy m.height = false →
      formatSupported m.format = true →
      (resizeGo env (m.width.getD 0) (m.height.getD 0) ceiling 10
          (initialDims (m.width.getD 0) (m.height.getD 0)) 1 = none →
        resizeImageIfNeeded env p ceiling = p) ∧
      (∀ tr, resizeGo env (m.width.getD 0) (m.height.getD 0) ceiling 10
          (initialDims (m.width.getD 0) (m.height.getD 0)) 1 = some tr →
        resizeImageIfNeeded env p ceiling = resizedPathFor p ∧
        ((∃ a, tr.getLast? = some a ∧ a.size ≤ ceiling) ∨ tr.length = 10))) := by
  refine ⟨?_, ?_, ?_, ?_, ?_, ?_, ?_⟩
  · unfold resizeImageIfNeeded
    cases env.origSize with
    | none => exact Or.inl rfl
    | some sz =>
      dsimp only
      by_cases hsz : sz ≤ ceiling
      · rw [if_pos hsz]
        exact Or.inl rfl
      · rw [if_neg hsz]
        cases env.meta with
        | none => exact Or.inl rfl
        | some m =>
          dsimp only
          by_cases hdims : (natFalsy m.width || natFalsy m.height) = true
          · rw [if_pos hdims]
            exact Or.inl rfl
          · rw [if_neg hdims]
            by_cases hfmt : (!formatSupported m.format) = true
            · rw [if_pos hfmt]
              exact Or.inl rfl
            · rw [if_neg hfmt]
              cases resizeGo env (m.width.getD 0) (m.height.getD 0) ceiling 10
                  (initialDims (m.width.getD 0) (m.height.getD 0)) 1 with
              | none => exact Or.inl rfl
              | some tr => exact Or.inr rfl
  · intro h
    unfold resizeImageIfNeeded
    rw [h]
  · intro sz hsz hle
    unfold resizeImageIfNeeded
    rw [hsz]
    dsimp only
    rw [if_pos hle]
  · intro hmeta
    unfold resizeImageIfNeeded
    cases env.origSize with
    | none => rfl
    | some sz =>
      dsimp only
      by_cases hsz : sz ≤ ceiling
      · rw [if_pos hsz]
      · rw [if_neg hsz, hmeta]
  · intro m hm hdims
    unfold resizeImageIfNeeded
    cases env.origSize with
    | none => rfl
    | some sz =>
      dsimp only
      by_cases hsz : sz ≤ ceiling
      · rw [if_pos hsz]
      · rw [if_neg hsz, hm]
        dsimp only
        rw [if_pos hdims]
  · intro m hm hfmt
    unfold resizeImageIfNeeded
    cases env.origSize with
    | none => rfl
    | some sz =>
      dsimp only
      by_cases hsz : sz ≤ ceiling
      · rw [if_pos hsz]
      · rw [if_neg hsz, hm]
        dsimp only
        by_cases hdims : (natFalsy m.width || natFalsy m.height) = true
        · rw [if_pos hdims]
        · rw [if_neg hdims, if_pos (by simp [hfmt])]
  · intro sz m hsz hlt hm hw hh hfmt
    have hred : resizeImageIfNeeded env p ceiling =
        match resizeGo env (m.width.getD 0) (m.height.getD 0) ceiling 10
            (initialDims (m.width.getD 0) (m.height.getD 0)) 1 with
        | none => p
        | some _ => resizedPathFor p := by
      unfold resizeImageIfNeeded
      rw [hsz]
      dsimp only
      rw [if_neg hlt, hm]
      dsimp only
      rw [if_neg (by simp [hw, hh]), if_neg (by simp [hfmt])]
    constructor
    · intro hgo
      rw [hred, hgo]
    · intro tr hgo
      refine ⟨by rw [hred, hgo], ?_⟩
      exact (resizeGo_spec env (m.width.getD 0) (m.height.getD 0) ceiling 10 _ 1 tr hgo).2.2

/-- A tiny input already under the ceiling (metadata never consulted). -/
def resizeSmallEnv : ResizeEnv :=
  { origSize := some 100, meta := none, encode := fun _ _ => none }

/-- A 1000×600 JPEG of 5000 bytes whose first encode fits the ceiling. -/
def resizeFitEnv : ResizeEnv :=
  { origSize := some 5000
    meta := some ⟨some 1000, some 600, some "jpeg"⟩
    encode := fun _ _ => some 900 }

/-- C5 witness: an input already under the ceiling comes back unchanged,
and an oversized input whose first re-encode fits comes back as the
variant path. -/
theorem resize_never_raises_contract_witness :
    resizeImageIfNeeded resizeSmallEnv "photo.jpg" 4194304 = "photo.jpg" ∧
    resizeImageIfNeeded resizeFitEnv "photo.jpg" 1000 = resizedPathFor "photo.jpg" := by
  constructor
  · exact (resize_never_raises_contract resizeSmallEnv "photo.jpg" 4194304).2.2.1
      100 rfl (by decide)
  · exact (((resize_never_raises_contract resizeFitEnv "photo.jpg" 1000).2.2.2.2.2.2
      5000 ⟨some 1000, some 600, some "jpeg"⟩ rfl (by decide) rfl rfl rfl (by decide)).2
      [⟨900, 540, 900⟩] (by decide)).1

/-- C6 (amended): when resizing runs, the first attempt's target pair is
`round(0.9·(w, h))`, replaced by an aspect-derived pair pinned at 800 only
when BOTH rounded values fall below the floor; each subsequent attempt's
pair is the per-dimension clamp `max(round(dim·0.9^(j+1)), 800)` — which
keeps both dimensions at or above 800 but need not preserve the aspect
ratio — and the loop makes at most 10 attempts. -/
theorem resize_target_dims_amended (env : ResizeEnv) (w h ceiling : Nat)
    (tr : List Attempt)
    (hgo : resizeGo env w h ceiling 10 (initialDims w h) 1 = some tr) :
    tr.length ≤ 10 ∧
    (∀ hj : 0 < tr.length,
      (tr.get ⟨0, hj⟩).width = (initialDims w h).1 ∧
      (tr.get ⟨0, hj⟩).height = (initialDims w h).2) ∧
    (∀ j, 1 ≤ j → ∀ hj : j < tr.length,
      (tr.get ⟨j, hj⟩).width = max (roundScaled w (j + 1)) 800 ∧
      (tr.get ⟨j, hj⟩).height = max (roundScaled h (j + 1)) 800 ∧
      800 ≤ (tr.get ⟨j, hj⟩).width ∧ 800 ≤ (tr.get ⟨j, hj⟩).height) := by
  refine ⟨(resizeGo_spec env w h ceiling 10 _ 1 tr hgo).1, ?_, ?_⟩
  · intro hj
    have h0 := resizeGo_get env w h ceiling 10 _ 1 tr hgo 0 hj
    rw [if_pos rfl] at h0
    exact ⟨congrArg Prod.fst h0, congrArg Prod.snd h0⟩
  · intro j h1j hj
    have hget := resizeGo_get env w h ceiling 10 _ 1 tr hgo j hj
    rw [if_neg (by omega), shrinkDims_eq] at hget
    have harith : 1 + j = j + 1 := by omega
    rw [harith] at hget
    have hW : (tr.get ⟨j, hj⟩).width = max (roundScaled w (j + 1)) 800 :=
      congrArg Prod.fst hget
    have hH : (tr.get ⟨j, hj⟩).height = max (roundScaled h (j + 1)) 800 :=
      congrArg Prod.snd hget
    exact ⟨hW, hH, hW ▸ Nat.le_max_right _ _, hH ▸ Nat.le_max_right _ _⟩

/-- Oracle for the C6 counterexample and the amended-claim witness: a
1000×600 JPEG of 5000 bytes against a 1000-byte ceiling whose first
re-encode is still too big and whose second fits. -/
def dimsCexEnv : ResizeEnv :=
  { origSize := some 5000
    meta := some ⟨some 1000, some 600, some "jpeg"⟩
    encode := fun w h => if w = 900 && h = 540 then some 2000 else some 0 }

/-- C6 counterexample: for a 1000×600 original the resize loop's first
computed target pair is 900×540 — its height 540 is BELOW the 800px floor
(the source clamps only when both rounded dimensions are below it) — and
the second pair 810×800 does not preserve the 1000:600 aspect ratio
(810·600 ≠ 800·1000), refuting the claim's "neither dimension falls below
the floor, aspect preserved" for the computed pairs. -/
theorem resize_target_dims_counterexample :
    resizeImageIfNeeded dimsCexEnv "p.jpg" 1000 = resizedPathFor "p.jpg" ∧
    resizeGo dimsCexEnv 1000 600 1000 10 (initialDims 1000 600) 1 =
      some [⟨900, 540, 2000⟩, ⟨810, 800, 0⟩] ∧
    540 < 800 ∧ 810 * 600 ≠ 800 * 1000 :=
  ⟨by decide, by decide, by decide, by decide⟩

/-- C6 witness (amended claim): the concrete two-attempt trace obeys the
amended dimension rule: the budget bound holds and the second attempt is
the per-dimension clamp. -/
theorem resize_target_dims_amended_witness :
    ∃ tr, resizeGo dimsCexEnv 1000 600 1000 10 (initialDims 1000 600) 1 = some tr ∧
      tr.length ≤ 10 := by
  refine ⟨[⟨900, 540, 2000⟩, ⟨810, 800, 0⟩], by decide, ?_⟩
  exact (resize_target_dims_amended dimsCexEnv 1000 600 1000 _ (by decide)).1

end LobQC
